import Mathlib

/-!
Verification of the flowfunc workflow core (shallow embedding).

The definitions below are translated from the Python sources of the
repository:

* `flowfunc/workflow_definition/schema.py` (data model, mapspec and
  resource synthesis on `StepDefinition`),
* `flowfunc/composition/step.py` (the resolver-chain variant of mapspec
  synthesis),
* `flowfunc/pipeline/resolvers.py` and `flowfunc/pipeline/builder.py`
  (the pipeline builder),
* `flowfunc/run/input_resolver.py` (input resolution),
* `flowfunc/run/output_persister.py` (artifact persistence),
* `flowfunc/run/coordinator.py`, `flowfunc/run/state_tracker.py`,
  `flowfunc/run/summary_persister.py`, `flowfunc/pipeline/executor.py`
  (the run lifecycle),
* `flowfunc/workflow_definition/utils.py` (run id generation).

Python dictionaries are modelled as ordered association lists with the
usual CPython semantics: assignment to an existing key replaces the value
in place, assignment to a fresh key appends at the end.
-/

namespace FlowFunc

/-- A scalar value as it occurs in workflow definitions (string, integer
or boolean literal).  Mapping- or list-valued entries are outside this
model. -/
inductive Val where
  | vstr (s : String)
  | vint (n : Int)
  | vbool (b : Bool)
deriving DecidableEq, Repr

/-- An insertion-ordered dictionary with `String` keys, the model of a
Python `dict`. -/
abbrev Dict (α : Type) := List (String × α)

/-- Key membership test (`k in d`). -/
def dictContains {α : Type} : Dict α → String → Bool
  | [], _ => false
  | p :: t, k => p.1 == k || dictContains t k

/-- Lookup (`d[k]` / `d.get(k)`), returning the value of the first entry
with the given key. -/
def dictLookup {α : Type} : Dict α → String → Option α
  | [], _ => none
  | p :: t, k => if p.1 == k then some p.2 else dictLookup t k

/-- Replace the value of every entry whose key is `k` (helper of
`dictInsert`). -/
def dictReplace {α : Type} : Dict α → String → α → Dict α
  | [], _, _ => []
  | p :: t, k, v => (if p.1 == k then (k, v) else p) :: dictReplace t k v

/-- Python dictionary assignment `d[k] = v`: replace in place when the
key is present, append otherwise. -/
def dictInsert {α : Type} (d : Dict α) (k : String) (v : α) : Dict α :=
  if dictContains d k then dictReplace d k v else d ++ [(k, v)]

/-- Python `d.update(e)` (equally `{**d, **e}`): assign every entry of
`e` into `d`, in order. -/
def dictUpdate {α : Type} (d e : Dict α) : Dict α :=
  e.foldl (fun a p => dictInsert a p.1 p.2) d

/-- A Python exception, as far as the embedded code can raise one.
`buildError` is `PipelineBuildError`; `attributeError` and `nameError`
record the attribute or name whose lookup failed. -/
inductive PyError where
  | buildError (msg : String)
  | valueError (msg : String)
  | attributeError (name : String)
  | nameError (name : String)
deriving DecidableEq, Repr

/-- `MapMode` from `flowfunc/workflow_definition/schema.py`: the enum has
exactly the three members `BROADCAST`, `ZIP` and `AGGREGATE`. -/
inductive MapMode where
  | broadcast
  | zip
  | aggregate
deriving DecidableEq, Repr


/-- `Resources` from `flowfunc/workflow_definition/schema.py`.  Fields
default to `None`.

The model declares a `prevent_reserved_keys_in_advanced_options`
validator whose body raises `ValueError` when `advanced_options` holds
the key `cpus` or `memory` — but it is stacked `@classmethod` ABOVE
`@field_validator`, and pydantic v2 registers only direct
`PydanticDescriptorProxy` class attributes, so the validator is never
run: construction accepts any `advanced_options` keys.  No validation
is therefore modelled here. -/
structure Resources where
  cpus : Option Int := none
  memory : Option String := none
  advanced_options : Option (Dict Val) := none
deriving DecidableEq, Repr

/-- `StepOptions` from `flowfunc/workflow_definition/schema.py` (the
fields the embedded code reads).  `output_name` is modelled as the list
of output names; the Python `str` case is the one-element list, exactly
the normalisation the mapspec synthesizers apply
(`[o] if isinstance(o, str) else o`). -/
structure StepOptions where
  output_name : List String := []
  renames : Dict String := []
  defaults : Dict Val := []
  mapspec : Option String := none
  scope : Option String := none
  map_mode : Option MapMode := some MapMode.broadcast
deriving DecidableEq, Repr

/-- `StepDefinition` from `flowfunc/workflow_definition/schema.py` (the
fields the embedded code reads).  Input values are scalars ([Val]); the
`InputItem` wrapper dumps back to its `value`, which is what every
consumer reads. -/
structure StepDefinition where
  name : String
  func : Option String := none
  inputs : Dict Val := []
  parameters : Dict Val := []
  output_name : Option String := none
  resources : Option Resources := none
  options : Option StepOptions := some {}
deriving DecidableEq, Repr

/-- `WorkflowSpecOptions` from the schema (fields read by the builder). -/
structure WorkflowSpecOptions where
  scope : Option String := none
  default_resources : Option Resources := none
deriving DecidableEq, Repr

/-- `WorkflowSpec` from the schema (fields read by the embedded code). -/
structure WorkflowSpec where
  default_module : Option String := none
  options : Option WorkflowSpecOptions := some {}
  inputs : Dict Val := []
  outputs : Dict String := []
  steps : List StepDefinition := []
deriving DecidableEq, Repr

/-- `WorkflowDefinition`: `metadata.name` plus the spec. -/
structure WorkflowDefinition where
  name : String
  spec : WorkflowSpec
deriving DecidableEq, Repr

/-- Python truthiness of an optional string: `None` and `""` are falsy. -/
def truthyOptStr : Option String → Bool
  | none => false
  | some s => s ≠ ""

/-- `indices = list(string.ascii_lowercase[8:])` — the fixed alphabet of
18 index symbols `i` through `z`, shared by both mapspec synthesizers. -/
def mapspecIndices : List String :=
  ["i", "j", "k", "l", "m", "n", "o", "p", "q", "r",
   "s", "t", "u", "v", "w", "x", "y", "z"]

/-- The `case MapMode.BROADCAST` loop of both synthesizers:
`for i, source_name in enumerate(iterable_inputs.values())`, raising
`PipelineBuildError` as soon as `i >= len(indices)`; otherwise it
collects the indexed input expression `source[index]` and the output
index symbol.  `i` is the enumeration counter. -/
def broadcastParts : List String → Nat → Except PyError (List String × List String)
  | [], _ => .ok ([], [])
  | src :: rest, i =>
    if mapspecIndices.length ≤ i then
      .error (.buildError "Too many iterable inputs for broadcast.")
    else
      let index := mapspecIndices.getD i ""
      match broadcastParts rest (i + 1) with
      | .error e => .error e
      | .ok (ins, outIdx) =>
          .ok ((src ++ "[" ++ index ++ "]") :: ins, index :: outIdx)

/-- `sep.join(parts)`. -/
def joinSep (sep : String) : List String → String
  | [] => ""
  | [x] => x
  | x :: t => x ++ sep ++ joinSep sep t

/-- `"." in s` — membership of the dot character. -/
def strHasDot (s : String) : Bool := s.data.contains '.'

/-- `s.startswith("$global.")`. -/
def strStartsWithGlobal (s : String) : Bool :=
  "$global.".data.isPrefixOf s.data

/-- Characters after the first dot (helper of [afterFirstDot]). -/
def charsAfterFirstDot : List Char → List Char
  | [] => []
  | c :: t => if c = '.' then t else charsAfterFirstDot t

/-- `value.split(".", 1)[1]`: the text after the first dot.  (The source
only evaluates this under a guard that guarantees a dot is present.) -/
def afterFirstDot (s : String) : String :=
  String.mk (charsAfterFirstDot s.data)

/-- The input classification of `StepDefinition._get_pipefunc_mapspec`:
an input is iterable when its value is a string that starts with
`$global.` or contains a dot; its source name is the text after the
first dot.  All other inputs are constants.  Insertion order is kept. -/
def classifyInputs : Dict Val → Dict String × List String
  | [] => ([], [])
  | (name, v) :: rest =>
    let (iters, consts) := classifyInputs rest
    match v with
    | .vstr s =>
        if strStartsWithGlobal s || strHasDot s then
          ((name, afterFirstDot s) :: iters, consts)
        else
          (iters, name :: consts)
    | _ => (iters, name :: consts)

/-- `resolve_mapspec` from `flowfunc/composition/step.py`.

The source first passes an already-set mapspec through
(`if options.mapspec: return options` — Python truthiness, so `None`
and the empty string both fall through).  The very next statement is
`if (map_mode := step.options.map_mode) == MapMode.NONE:`; the
`MapMode` enum imported from `flowfunc/workflow_definition/schema.py`
has no member `NONE`, so this attribute access raises
`AttributeError` before any synthesis can happen.  Every later line of
the function (including its broadcast, zip and aggregate branches) is
therefore unreachable. -/
def resolveMapspec (options : StepOptions) : Except PyError StepOptions :=
  if truthyOptStr options.mapspec then .ok options
  else .error (.attributeError "NONE")

/-- `StepDefinition._get_pipefunc_mapspec` from
`flowfunc/workflow_definition/schema.py`, translated line by line:
pass an already-set (truthy) `options.mapspec` through; return `None`
when `inputs` or `output_name` is falsy; classify inputs; return
`None` without iterable inputs; otherwise synthesize according to
`map_mode` (`None` when `options` is `None` defaults the mode to
`BROADCAST`; an explicit `map_mode=None` falls into the
`case _: raise ValueError` branch). -/
def getPipefuncMapspec (step : StepDefinition) : Except PyError (Option String) :=
  let optMapspec := match step.options with
    | some o => o.mapspec
    | none => none
  if truthyOptStr optMapspec then .ok optMapspec
  else if step.inputs = [] || !truthyOptStr step.output_name then .ok none
  else
    let mapMode : Option MapMode := match step.options with
      | some o => o.map_mode
      | none => some MapMode.broadcast
    let (iters, consts) := classifyInputs step.inputs
    if iters = [] then .ok none
    else
      let outputNames := [(step.output_name).getD ""]
      let assemble (inputParts : List String) (outputsStr : String) :
          Except PyError (Option String) :=
        .ok (some (joinSep ", " (inputParts ++ consts)
          ++ " -> " ++ outputsStr))
      match mapMode with
      | some MapMode.broadcast =>
        match broadcastParts (iters.map Prod.snd) 0 with
        | .error e => .error e
        | .ok (inputParts, outputIndices) =>
          let outputIndexStr := joinSep "," outputIndices
          let outputParts :=
            outputNames.map (fun n => n ++ "[" ++ outputIndexStr ++ "]")
          assemble inputParts (joinSep ", " outputParts)
      | some MapMode.zip =>
        let index := mapspecIndices.getD 0 ""
        let inputParts :=
          (iters.map Prod.snd).map (fun src => src ++ "[" ++ index ++ "]")
        let outputParts := outputNames.map (fun n => n ++ "[" ++ index ++ "]")
        assemble inputParts (joinSep ", " outputParts)
      | some MapMode.aggregate =>
        -- Note: no arity check here — any number of iterable inputs is
        -- accepted, each indexed with the same symbol; the output
        -- carries no index.
        let index := mapspecIndices.getD 0 ""
        let inputParts :=
          (iters.map Prod.snd).map (fun src => src ++ "[" ++ index ++ "]")
        assemble inputParts (joinSep ", " outputNames)
      | none => .error (.valueError "Unhandled MapMode")

/-- `{**a, **b}` on two optional values: the second wins when present
(`model_dump(exclude_none=True)` omits `None` fields, so a key is in the
merged dump exactly when either side has it, the step side winning). -/
def optOrElse {α : Type} (override fallback : Option α) : Option α :=
  match override with
  | some x => some x
  | none => fallback

/-- Field access through an optional `Resources` model (`{}` dump when
the model itself is `None`). -/
def resCpus : Option Resources → Option Int
  | none => none
  | some r => r.cpus

def resMemory : Option Resources → Option String
  | none => none
  | some r => r.memory

def resAdvanced : Option Resources → Option (Dict Val)
  | none => none
  | some r => r.advanced_options

/-- The advanced-options mapping that survives the
`{**global_dict, **step_dict}` merge followed by
`merged.pop("advanced_options", {}) or {}`. -/
def mergedAdvanced (globalRes stepRes : Option Resources) : Dict Val :=
  (optOrElse (resAdvanced stepRes) (resAdvanced globalRes)).getD []

/-- `resolve_resources` from `flowfunc/pipeline/resolvers.py` (the same
computation as `StepDefinition._get_pipefunc_resources` in the schema):
merge the two `model_dump(exclude_none=True)` dictionaries with the
step side winning, pop `advanced_options`, emit the named fields `cpus`
then `memory` when present, then `update` with the advanced mapping. -/
def flattenResources (globalRes stepRes : Option Resources) : Dict Val :=
  let cpus := optOrElse (resCpus stepRes) (resCpus globalRes)
  let memory := optOrElse (resMemory stepRes) (resMemory globalRes)
  let named : Dict Val :=
    (match cpus with
      | some c => [("cpus", Val.vint c)]
      | none => []) ++
    (match memory with
      | some m => [("memory", Val.vstr m)]
      | none => [])
  dictUpdate named (mergedAdvanced globalRes stepRes)

/-- `f"{workflow_scope}.{name}"` when a workflow scope is set, the bare
name otherwise (`InputResolver.resolve`, `OutputPersister.persist`). -/
def scopedName (scope : Option String) (name : String) : String :=
  match scope with
  | some sc => sc ++ "." ++ name
  | none => name


/-- Step 1 of `InputResolver.resolve`: apply the workflow-level input
defaults under their scoped names, into a fresh dictionary. -/
def applyGlobalDefaults (globalInputs : Dict Val) (scope : Option String) :
    Dict Val :=
  globalInputs.foldl (fun d p => dictInsert d (scopedName scope p.1) p.2) []

/-- Steps 1 and 2 of `InputResolver.resolve`: scoped workflow defaults,
then `resolved[name] = value` for every user input (user values
overwrite). -/
def mergedInputs (userInputs globalInputs : Dict Val)
    (scope : Option String) : Dict Val :=
  dictUpdate (applyGlobalDefaults globalInputs scope) userInputs

/-- Step 3 of `InputResolver.resolve`: the required pipeline inputs that
are absent from the merged mapping
(`set(pipeline_required_inputs) - set(resolved.keys())`). -/
def missingRequired (merged : Dict Val) (requiredInputs : List String) :
    List String :=
  requiredInputs.filter (fun r => !dictContains merged r)

/-- `InputResolver.resolve` from `flowfunc/run/input_resolver.py`:
merge scoped workflow defaults with user inputs (user wins), raise
`InputResolverError` naming every missing required input at once, and
finally keep only the keys the pipeline reports in `inputs`.  The error
payload is the set of missing names embedded in the message. -/
def inputResolve (userInputs globalInputs : Dict Val) (scope : Option String)
    (pipelineInputs requiredInputs : List String) :
    Except (List String) (Dict Val) :=
  let resolved := mergedInputs userInputs globalInputs scope
  let missing := missingRequired resolved requiredInputs
  if missing.isEmpty then
    .ok (resolved.filter (fun p => pipelineInputs.contains p.1))
  else
    .error missing

/-- The environment `OutputPersister.persist` runs in: the keys present
in the pipeline result map, the workflow scope, the run output
directory, and an oracle telling whether serialising to a given target
path succeeds (serialiser lookup, directory creation and `dump`
collapsed into one success bit). -/
structure PersistCtx where
  resultKeys : List String
  scope : Option String
  outputDir : String
  serializeOk : String → Bool

/-- Target path of one declared output: the path spec itself when
absolute, `output_dir / spec` otherwise. -/
def targetPathOf (ctx : PersistCtx) (pathSpec : String) : String :=
  if pathSpec.data.take 1 = ['/'] then pathSpec
  else ctx.outputDir ++ "/" ++ pathSpec

/-- The loop body of `OutputPersister.persist` for one declared output:
skip (with a log line) when the scoped result key is absent; otherwise
attempt serialisation inside `try`, adding to the manifest only on
success — every exception of the attempt is caught and logged inside
the loop, so the iteration always continues. -/
def persistOne (ctx : PersistCtx) (manifest : Dict String)
    (declared : String × String) : Dict String :=
  let actualKey := scopedName ctx.scope declared.1
  if ctx.resultKeys.contains actualKey then
    let target := targetPathOf ctx declared.2
    if ctx.serializeOk target then dictInsert manifest declared.1 target
    else manifest
  else manifest

/-- `OutputPersister.persist` from `flowfunc/run/output_persister.py`:
fold [persistOne] over the declared outputs in order, starting from an
empty manifest.  The function is total: no exception escapes the loop. -/
def persistOutputs (ctx : PersistCtx) (declaredOutputs : Dict String) :
    Dict String :=
  declaredOutputs.foldl (persistOne ctx) []

/-- `string.ascii_letters + string.digits + "-_"` from
`sanitize_string` in `flowfunc/workflow_definition/utils.py`. -/
def sanitizeAllowedChars : List Char :=
  "abcdefghijklmnopqrstuvwxyzABCDEFGHIJKLMNOPQRSTUVWXYZ0123456789-_".data

/-- The `translate` line of `sanitize_string` in
`flowfunc/workflow_definition/utils.py`:
`str.maketrans("", "", allowed_chars)` builds a table whose third
argument lists the characters to DELETE, so
`data.translate(disallowed_map)` deletes every allowed character and
keeps exactly the disallowed ones — the inverse of the intended
sanitisation. -/
def sanitizeTranslateStep (data : String) : String :=
  String.mk (data.data.filter (fun c => !sanitizeAllowedChars.contains c))


/-- `sanitize_string` from `flowfunc/workflow_definition/utils.py`.
After the `translate` line (and a `.replace(string.punctuation, "_")`
that replaces occurrences of the entire 32-character punctuation string,
a no-op unless the input embeds that exact sequence), the function
evaluates `re.sub(r"_+", "_", sanitized)` — but the module never
imports `re`, so every call raises `NameError: name 're' is not
defined` before returning. -/
def sanitizeString (data : String) : Except PyError String :=
  let _sanitized := sanitizeTranslateStep data
  .error (.nameError "re")

/-- `generate_unique_id` from `flowfunc/workflow_definition/utils.py`.
`timestamp` stands for `datetime.now().strftime("%Y%m%d_%H%M%S")` and
`uuidHex` for `uuid.uuid4().hex`, both received from the environment.
`prefix = sanitize_string(run_name) if run_name else "run"` — Python
truthiness, so `None` and `""` both select the literal `"run"`.  The
result is `f"{prefix}_{timestamp}_{unique_suffix}"`. -/
def generateUniqueId (runName : Option String) (timestamp uuidHex : String) :
    Except PyError String :=
  let uniqueSuffix := String.mk (uuidHex.data.take 6)
  if truthyOptStr runName then
    match sanitizeString (runName.getD "") with
    | .error e => .error e
    | .ok pre => .ok (pre ++ "_" ++ timestamp ++ "_" ++ uniqueSuffix)
  else
    .ok ("run" ++ "_" ++ timestamp ++ "_" ++ uniqueSuffix)

/-- The accumulator built by the step-option resolver chain of
`flowfunc/pipeline/builder.py` (`final_options`), restricted to the
fields that chain writes: `func` (the resolved callable, recorded by
its dotted module path), `renames`, `defaults`, `resources`, `scope`. -/
structure PipeFuncOptions where
  func : Option String := none
  renames : Dict String := []
  defaults : Dict Val := []
  resources : Dict Val := []
  scope : Option String := none
deriving DecidableEq, Repr

/-- The seed of `_create_pipe_func_from_step`:
`step.options.model_dump(exclude_none=True, by_alias=True)` — the
renames, defaults and scope already present on the inline options
block. -/
def seedOptions (step : StepDefinition) : PipeFuncOptions :=
  match step.options with
  | some so => { renames := so.renames, defaults := so.defaults, scope := so.scope }
  | none => {}

/-- `resolve_function_path` from `flowfunc/pipeline/resolvers.py`:
take `step.func`, or default to `f"{default_module}.{step.name}"`, or
raise `PipelineBuildError`; then import the callable (modelled by the
`importOk` oracle), raising `PipelineBuildError` when the import
fails. -/
def resolveFunctionPath (importOk : String → Bool) (o : PipeFuncOptions)
    (step : StepDefinition) (wf : WorkflowDefinition) :
    Except PyError PipeFuncOptions :=
  let path? : Except PyError String :=
    if truthyOptStr step.func then .ok (step.func.getD "")
    else if truthyOptStr wf.spec.default_module && step.name ≠ "" then
      .ok (wf.spec.default_module.getD "" ++ "." ++ step.name)
    else
      .error (.buildError ("Step '" ++ step.name ++
        "': 'func' is not specified and cannot be defaulted."))
  match path? with
  | .error e => .error e
  | .ok path =>
    if importOk path then .ok { o with func := some path }
    else .error (.buildError ("Could not import callable '" ++ path ++
      "' for step '" ++ step.name ++ "'"))

/-- The loop of `resolve_input_renames`: a `$global.` reference becomes
a rename `local_name -> text after the first dot` unless the two names
coincide; a non-string input value hits `.startswith` and raises
`AttributeError`. -/
def collectGlobalRenames : Dict Val → Except PyError (Dict String)
  | [] => .ok []
  | (name, Val.vstr s) :: rest =>
    match collectGlobalRenames rest with
    | .error e => .error e
    | .ok r =>
      if strStartsWithGlobal s then
        let globalVar := afterFirstDot s
        if name ≠ globalVar then .ok ((name, globalVar) :: r) else .ok r
      else .ok r
  | (_, _) :: _ => .error (.attributeError "startswith")

/-- `resolve_input_renames` from `flowfunc/pipeline/resolvers.py`:
merge the collected `$global` renames into any pre-existing ones (only
when at least one was collected). -/
def resolveInputRenamesFn (o : PipeFuncOptions) (step : StepDefinition) :
    Except PyError PipeFuncOptions :=
  match collectGlobalRenames step.inputs with
  | .error e => .error e
  | .ok renames =>
    if renames = [] then .ok o
    else .ok { o with renames := dictUpdate o.renames renames }

/-- `resolve_input_defaults` from `flowfunc/pipeline/resolvers.py`:
add each step parameter to `defaults` unless the key is already set. -/
def resolveInputDefaultsFn (o : PipeFuncOptions) (step : StepDefinition) :
    PipeFuncOptions :=
  step.parameters.foldl
    (fun acc p =>
      if dictContains acc.defaults p.1 then acc
      else { acc with defaults := acc.defaults ++ [p] })
    o

/-- `workflow.spec.options.default_resources if workflow.spec.options
else None`. -/
def workflowDefaultResources (wf : WorkflowDefinition) : Option Resources :=
  match wf.spec.options with
  | some o => o.default_resources
  | none => none

/-- `resolve_resources` from `flowfunc/pipeline/resolvers.py` applied to
the options accumulator: set `resources` to the flattened merge when it
is non-empty. -/
def resolveResourcesFn (o : PipeFuncOptions) (step : StepDefinition)
    (wf : WorkflowDefinition) : PipeFuncOptions :=
  let flattened := flattenResources (workflowDefaultResources wf) step.resources
  if flattened = [] then o else { o with resources := flattened }

/-- `resolve_step_scope` from `flowfunc/pipeline/resolvers.py`. -/
def resolveStepScopeFn (o : PipeFuncOptions) (step : StepDefinition) :
    PipeFuncOptions :=
  match step.options with
  | some so =>
    match so.scope with
    | some sc => { o with scope := some sc }
    | none => o
  | none => o

/-- `PipelineBuilder._create_pipe_func_from_step` from
`flowfunc/pipeline/builder.py`: seed the options from the inline options
block, run the five default step resolvers in order (a resolver
exception aborts this step, wrapped as `PipelineBuildError`), require
`func` to be resolved, and hand the options to `pipefunc.PipeFunc`.
Nothing in the chain inspects any other step of the workflow. -/
def createPipeFuncFromStep (importOk : String → Bool) (step : StepDefinition)
    (wf : WorkflowDefinition) : Except PyError PipeFuncOptions :=
  match resolveFunctionPath importOk (seedOptions step) step wf with
  | .error e => .error e
  | .ok o1 =>
    match resolveInputRenamesFn o1 step with
    | .error e => .error e
    | .ok o2 =>
      let o3 := resolveInputDefaultsFn o2 step
      let o4 := resolveResourcesFn o3 step wf
      let o5 := resolveStepScopeFn o4 step
      if o5.func = none then
        .error (.buildError ("'func' not resolved for step '" ++ step.name ++ "'."))
      else .ok o5

/-- `PipelineBuilder.build` from `flowfunc/pipeline/builder.py`: for
each step, in declaration order, build its `PipeFunc` options and
append them; the first per-step failure aborts the whole build.  The
loop performs no cross-step validation of any kind — in particular no
duplicate-name check — and the collected list is then handed to
`pipefunc.Pipeline` (the external execution engine). -/
def buildPipeline (importOk : String → Bool) (wf : WorkflowDefinition) :
    Except PyError (List PipeFuncOptions) :=
  wf.spec.steps.foldl
    (fun acc step =>
      match acc with
      | .error e => .error e
      | .ok fns =>
        match createPipeFuncFromStep importOk step wf with
        | .error e => .error e
        | .ok f => .ok (fns ++ [f]))
    (.ok [])

/-- `Status` from `flowfunc/run/summary_model.py`. -/
inductive Status where
  | pending
  | running
  | success
  | failed
deriving DecidableEq, Repr

/-- `Summary` from `flowfunc/run/summary_model.py`, restricted to the
fields the lifecycle claims are about. -/
structure RunSummary where
  run_id : String
  workflow_name : String
  status : Status
  error_message : Option String
  run_dir : String
deriving DecidableEq, Repr

/-- `RunStateTracker.complete_run` from `flowfunc/run/state_tracker.py`:
set the status, record the end time, and set `error_message` only when
the passed message is truthy (`if error_message:` — a `None` or empty
message leaves the field untouched). -/
def completeRun (s : RunSummary) (st : Status) (errMsg : Option String) :
    RunSummary :=
  { s with
    status := st,
    error_message :=
      match errMsg with
      | some m => if m = "" then s.error_message else some m
      | none => s.error_message }

/-- `workflow_name.replace(" ", "_").lower()` from
`RunEnvironmentManager.setup_run_directories`: per character, a space
becomes an underscore, everything else is lower-cased. -/
def safeWorkflowName (s : String) : String :=
  String.mk (s.data.map (fun c => if c = ' ' then '_' else c.toLower))

/-- `run_dir = self.runs_base_dir / safe_workflow_name / run_id`. -/
def runDirString (runsBase workflowName runId : String) : String :=
  runsBase ++ "/" ++ safeWorkflowName workflowName ++ "/" ++ runId

/-- `PipelineExecutor.execute` from `flowfunc/pipeline/executor.py`
wraps every exception `e` of `pipeline.map` as
`PipelineExecutionError(f"Pipeline execution failed for
'{pipeline_name}': {e}")` — a message that is never empty. -/
def execMsg (pipelineName excText : String) : String :=
  "Pipeline execution failed for '" ++ pipelineName ++ "': " ++ excText

/-- The coordinator re-raises as
`WorkflowRunError(f"Run '{run_id}' failed.")`. -/
def wrapMsg (runId : String) : String :=
  "Run '" ++ runId ++ "' failed."

/-- One run of `WorkflowRunCoordinator.execute_workflow`, as seen from
this layer: the outcome of each delegated stage (the payload of an
`error` is `str(e)` of the exception the stage raised) plus whether the
summary-file write in the `finally` block succeeds. -/
structure RunScenario where
  workflowName : String
  runId : String
  runsBase : String
  loadOutcome : Except String Unit := .ok ()
  envOutcome : Except String Unit := .ok ()
  buildOutcome : Except String Unit := .ok ()
  inputsOutcome : Except String Unit := .ok ()
  resolveOutcome : Except String Unit := .ok ()
  mapOutcome : Except String Unit := .ok ()
  saveOk : Bool := true
deriving Repr

/-- The externally observable effects of one coordinator run, in
chronological order. -/
inductive RunEvent where
  | summaryWritten (path : String)
  | raisedToCaller (msg : String)
deriving DecidableEq, Repr

/-- What `execute_workflow` leaves behind: its return value or raised
exception, the final in-memory summary (if one was created), and the
ordered effect trace. -/
structure RunOutcome where
  result : Except String RunSummary
  summary : Option RunSummary
  events : List RunEvent
deriving Repr

/-- `WorkflowRunCoordinator.execute_workflow` from
`flowfunc/run/coordinator.py`, desugared:

* a failure of `load_definition` or `setup_environment` happens before
  `start_run`, so `_summary_data` is `None`; the `except` branch then
  builds a minimal summary but reads `summary.start_time` with
  `summary = None`, raising `AttributeError` — nothing is saved;
* after `start_run` the summary exists (status RUNNING).  Any later
  stage exception `e` is caught: `complete_run(FAILED, str(e))` runs,
  then `raise WorkflowRunError(f"Run '{run_id}' failed.") from e` —
  and the `finally` block saves the summary to
  `run_dir/summary.json` (a save failure is swallowed) BEFORE the
  exception reaches the caller;
* the `execute` stage can only raise `PipelineExecutionError` with the
  wrapped message [execMsg] (the executor catches every exception of
  `pipeline.map`);
* on full success `complete_run(SUCCESS)` runs and the summary is
  saved on the way out.

Output persistence sits between `execute` and success-completion; it
returns a manifest and does not raise (see [persistOutputs]), so it
does not branch this control flow. -/
def executeWorkflow (s : RunScenario) : RunOutcome :=
  match s.loadOutcome with
  | .error _ =>
    { result := .error "AttributeError", summary := none,
      events := [.raisedToCaller "AttributeError"] }
  | .ok _ =>
    match s.envOutcome with
    | .error _ =>
      { result := .error "AttributeError", summary := none,
        events := [.raisedToCaller "AttributeError"] }
    | .ok _ =>
      let rd := runDirString s.runsBase s.workflowName s.runId
      let sum0 : RunSummary :=
        { run_id := s.runId, workflow_name := s.workflowName,
          status := .running, error_message := none, run_dir := rd }
      let saveEvents : List RunEvent :=
        if s.saveOk then [.summaryWritten (rd ++ "/summary.json")] else []
      let failWith (excText : String) : RunOutcome :=
        let sumF := completeRun sum0 .failed (some excText)
        let wrapped := wrapMsg s.runId
        { result := .error wrapped, summary := some sumF,
          events := saveEvents ++ [.raisedToCaller wrapped] }
      match s.buildOutcome with
      | .error e => failWith e
      | .ok _ =>
        match s.inputsOutcome with
        | .error e => failWith e
        | .ok _ =>
          match s.resolveOutcome with
          | .error e => failWith e
          | .ok _ =>
            match s.mapOutcome with
            | .error e => failWith (execMsg s.workflowName e)
            | .ok _ =>
              let sumS := completeRun sum0 .success none
              { result := .ok sumS, summary := some sumS,
                events := saveEvents }

/-- The duplicate-step-name workflow of claim C5: two steps named
`step-one`, a third named `step-two`, each with an importable `func`. -/
def dupNameWorkflow : WorkflowDefinition :=
  { name := "wf",
    spec :=
      { steps :=
          [ { name := "step-one", func := some "mod.f" },
            { name := "step-one", func := some "mod.f" },
            { name := "step-two", func := some "mod.f" } ] } }

/-- The step of the C9 counterexample: its options carry the explicit
mapspec `""` (the empty string), together with one iterable input. -/
def emptyMapspecStep : StepDefinition :=
  { name := "s",
    inputs := [("items", .vstr "$global.xs")],
    output_name := some "out",
    options := some { mapspec := some "" } }

/-- A step with an explicit non-empty mapspec, an iterable input and
aggregate mode, for the C9 witness. -/
def passThroughStep : StepDefinition :=
  { name := "s",
    inputs := [("items", .vstr "$global.xs")],
    output_name := some "out",
    options := some { mapspec := some "a[i] -> b[i]",
                      map_mode := some MapMode.aggregate } }

/-- The step of the C4 counterexample: aggregate mode with two iterable
inputs. -/
def aggTwoIterStep : StepDefinition :=
  { name := "s",
    inputs := [("a", .vstr "$global.xs"), ("b", .vstr "$global.ys")],
    output_name := some "out",
    options := some { map_mode := some MapMode.aggregate } }

/-- One iterable plus one constant, aggregate mode — witness step for
claim C4. -/
def aggOneIterStep : StepDefinition :=
  { name := "s",
    inputs := [("a", .vstr "$global.xs"), ("n", .vint 3)],
    output_name := some "out",
    options := some { map_mode := some MapMode.aggregate } }

/-- Two iterables in broadcast mode — witness step for C2. -/
def broadcastTwoIterStep : StepDefinition :=
  { name := "s",
    inputs := [("a", .vstr "$global.xs"), ("b", .vstr "$global.ys")],
    output_name := some "pairs" }

/-- Workflow-level defaults `cpus=2, memory=4Gi` — concrete resource
declarations for the C6 evaluation. -/
def c6GlobalRes : Option Resources := some { cpus := some 2, memory := some "4Gi" }

/-- Step-level resources overriding memory and adding a benign advanced
option — concrete resource declarations for the C6 evaluation. -/
def c6StepRes : Option Resources :=
  some { memory := some "8Gi", advanced_options := some [("gpus", Val.vint 1)] }

/-- What the artifact-persistence loop should produce, stated from the
spec: one manifest entry per declared artifact whose (scoped) source is
present in the results and whose serialisation succeeds; everything
else is skipped.  Used to compare against [persistOutputs]. -/
def persistManifestSpec (ctx : PersistCtx) (declaredOutputs : Dict String) :
    Dict String :=
  declaredOutputs.filterMap (fun p =>
    if ctx.resultKeys.contains (scopedName ctx.scope p.1) then
      (if ctx.serializeOk (targetPathOf ctx p.2) then
        some (p.1, targetPathOf ctx p.2) else none)
    else none)

/-- Persistence context for the C7 witness: results hold `a` and `c`,
serialisation fails for the target of `c`. -/
def c7Ctx : PersistCtx :=
  { resultKeys := ["a", "c"], scope := none, outputDir := "out",
    serializeOk := fun p => p != "out/c.json" }

/-- A concrete run whose execute stage raises — C1 witness scenario. -/
def failingRunScenario : RunScenario :=
  { workflowName := "demo", runId := "run_20260101_120000_abc123",
    runsBase := "/runs", mapOutcome := .error "boom" }

/-! ## Theorems -/

theorem dictLookup_dictReplace {α : Type} (d : Dict α) (k : String) (v : α)
    (k2 : String) :
    dictLookup (dictReplace d k v) k2 =
      if k2 = k then (if dictContains d k then some v else none)
      else dictLookup d k2 := by
  induction d with
  | nil => by_cases h : k2 = k <;> simp [dictReplace, dictLookup, dictContains, h]
  | cons p t ih =>
    by_cases hpk : p.1 = k
    · by_cases h2 : k2 = k
      · subst h2
        simp [dictReplace, dictLookup, dictContains, hpk, ih]
      · have hk2 : ¬k = k2 := fun h => h2 h.symm
        simp [dictReplace, dictLookup, dictContains, hpk, h2, hk2, ih]
    · by_cases h2 : k2 = k
      · subst h2
        by_cases hp2 : p.1 = k2 <;>
          simp [dictReplace, dictLookup, dictContains, hpk, hp2, ih]
      · by_cases hp2 : p.1 = k2 <;>
          simp [dictReplace, dictLookup, dictContains, hpk, hp2, ih, h2]

theorem dictLookup_append {α : Type} (d e : Dict α) (k : String) :
    dictLookup (d ++ e) k =
      (dictLookup d k).orElse (fun _ => dictLookup e k) := by
  induction d with
  | nil => simp [dictLookup, Option.orElse]
  | cons p t ih =>
    by_cases hp : p.1 = k <;> simp [dictLookup, hp, ih, Option.orElse]

theorem dictLookup_eq_none_of_not_contains {α : Type} (d : Dict α)
    (k : String) (h : dictContains d k = false) : dictLookup d k = none := by
  induction d with
  | nil => rfl
  | cons p t ih =>
    simp [dictContains] at h
    simp [dictLookup, h.1, ih h.2]

/-- Python dictionary assignment: looking up the assigned key yields the
assigned value; other keys are untouched. -/
theorem dictLookup_dictInsert {α : Type} (d : Dict α) (k : String) (v : α)
    (k2 : String) :
    dictLookup (dictInsert d k v) k2 =
      if k2 = k then some v else dictLookup d k2 := by
  unfold dictInsert
  by_cases hc : dictContains d k
  · rw [if_pos hc, dictLookup_dictReplace]
    by_cases h2 : k2 = k <;> simp [h2, hc]
  · rw [if_neg hc, dictLookup_append]
    by_cases h2 : k2 = k
    · subst h2
      rw [dictLookup_eq_none_of_not_contains d k2 (by simpa using hc)]
      simp [dictLookup, Option.orElse]
    · rw [if_neg h2]
      have hk2 : ¬k = k2 := fun h => h2 h.symm
      cases hl : dictLookup d k2 <;>
        simp [hl, dictLookup, Option.orElse, hk2]

theorem mem_of_dictLookup_eq_some {α : Type} {d : Dict α} {k : String}
    {v : α} (h : dictLookup d k = some v) : (k, v) ∈ d := by
  induction d with
  | nil => simp [dictLookup] at h
  | cons p t ih =>
    obtain ⟨p1, p2⟩ := p
    by_cases hp : p1 = k
    · subst hp
      simp [dictLookup] at h
      subst h
      exact List.mem_cons_self _ _
    · simp [dictLookup, hp] at h
      exact List.mem_cons_of_mem _ (ih h)

/-- Claim C8 — evidence for the code_bug.  Without a custom run name the
produced id is exactly `run_{timestamp}_{6 hex chars}` (the `prefix`
falls back to the literal `"run"`).  With any non-empty custom run name
the call raises `NameError`, because `sanitize_string` evaluates
`re.sub` while `flowfunc/workflow_definition/utils.py` never imports
`re`; no run id of the claimed form is ever produced.  (The claim says
the prefix is the sanitized custom name.) -/
theorem c8_generate_unique_id_eval :
    (∀ ts hex : String,
        generateUniqueId none ts hex =
          .ok ("run" ++ "_" ++ ts ++ "_" ++ String.mk (hex.data.take 6)))
    ∧ (∀ name ts hex : String, name ≠ "" →
        generateUniqueId (some name) ts hex = .error (.nameError "re")) := by
  constructor
  · intro ts hex
    rfl
  · intro name ts hex hne
    simp [generateUniqueId, truthyOptStr, hne, sanitizeString]

/-- Witness for [c8_generate_unique_id_eval]: at the concrete custom run
name `my-run` the generator raises `NameError` on `re`. -/
theorem c8_generate_unique_id_eval_witness :
    "my-run" ≠ "" ∧
    generateUniqueId (some "my-run") "20260101_120000" "abcdef0123" =
      .error (.nameError "re") :=
  ⟨by decide,
   c8_generate_unique_id_eval.2 "my-run" "20260101_120000" "abcdef0123"
     (by decide)⟩

/-- Claim C5 — evidence for the code_bug.  `PipelineBuilder.build` on a
workflow whose first two steps share the name `step-one` does not
raise: it constructs the per-step options of all three steps, the step
after the duplicate included.  (The claim says `build()` raises before
constructing any options for steps after the duplicate; the repository
test-suite imports `flowfunc.composition.step.validate_step_name_is_unique`
expecting exactly that, but no such validator exists in the source.) -/
theorem c5_duplicate_step_names_not_rejected :
    (buildPipeline (fun _ => true) dupNameWorkflow).map List.length =
      Except.ok 3
    ∧ ∀ e, buildPipeline (fun _ => true) dupNameWorkflow ≠ .error e := by
  constructor
  · rfl
  · intro e he
    have h1 : (buildPipeline (fun _ => true) dupNameWorkflow).map List.length =
        Except.ok 3 := rfl
    rw [he] at h1
    exact Except.noConfusion h1

/-- Claim C9 — counterexample.  A step whose options contain the
explicit (empty-string) mapspec `""` is NOT passed through unchanged:
`if self.options and self.options.mapspec:` treats `""` as unset, and
synthesis proceeds, returning `xs[i] -> out[i]` instead of `""`. -/
theorem c9_empty_mapspec_not_passed_through :
    getPipefuncMapspec emptyMapspecStep = .ok (some "xs[i] -> out[i]")
    ∧ getPipefuncMapspec emptyMapspecStep ≠ .ok (some "") := by
  constructor
  · rfl
  · intro he
    have h1 : getPipefuncMapspec emptyMapspecStep =
        .ok (some "xs[i] -> out[i]") := rfl
    rw [he] at h1
    have h2 : ("" : String) = "xs[i] -> out[i]" := by
      injection h1 with h1
      injection h1
    exact absurd h2 (by decide)

/-- Claim C9 (amended): for every step whose options contain a
NON-EMPTY explicit mapspec, synthesis returns that mapspec unchanged,
regardless of the classified inputs and of the map mode — in both
synthesizers: `StepDefinition._get_pipefunc_mapspec` returns the string
itself, and `resolve_mapspec` of `flowfunc/composition/step.py` returns
its options argument untouched. -/
theorem c9_mapspec_passthrough (step : StepDefinition) (o : StepOptions)
    (s : String) (hopt : step.options = some o) (hms : o.mapspec = some s)
    (hne : s ≠ "") :
    getPipefuncMapspec step = .ok (some s)
    ∧ ∀ options : StepOptions, options.mapspec = some s →
        resolveMapspec options = .ok options := by
  constructor
  · simp [getPipefuncMapspec, hopt, hms, truthyOptStr, hne]
  · intro options hms2
    simp [resolveMapspec, hms2, truthyOptStr, hne]

/-- Witness for [c9_mapspec_passthrough] at a concrete step. -/
theorem c9_mapspec_passthrough_witness :
    getPipefuncMapspec passThroughStep = .ok (some "a[i] -> b[i]") :=
  (c9_mapspec_passthrough passThroughStep
    { mapspec := some "a[i] -> b[i]", map_mode := some MapMode.aggregate }
    "a[i] -> b[i]" rfl rfl (by decide)).1

/-- Claim C4 — counterexample.  An aggregate step with two iterable
arguments does NOT make synthesis raise:
`StepDefinition._get_pipefunc_mapspec` has no arity check in its
aggregate branch and returns `xs[i], ys[i] -> out`. -/
theorem c4_aggregate_two_iterables_no_error :
    getPipefuncMapspec aggTwoIterStep = .ok (some "xs[i], ys[i] -> out")
    ∧ ∀ e, getPipefuncMapspec aggTwoIterStep ≠ .error e := by
  constructor
  · rfl
  · intro e he
    have h1 : getPipefuncMapspec aggTwoIterStep =
        .ok (some "xs[i], ys[i] -> out") := rfl
    rw [he] at h1
    exact Except.noConfusion h1

/-- Claim C4 (amended): in aggregate mode, every iterable argument is
indexed with the single symbol `i` on the input side and the output
expression carries no index.  With exactly one iterable argument this
is the behaviour the claim describes; with two or more, synthesis does
NOT raise — all iterables share the index `i` and the output is still
unindexed.  (The arity check the claim describes exists only in the
unreachable `resolve_mapspec` of `flowfunc/composition/step.py`.) -/
theorem c4_aggregate_amended (step : StepDefinition) (o : StepOptions)
    (out : String) (iters : Dict String) (consts : List String)
    (hopt : step.options = some o) (hms : o.mapspec = none)
    (hmode : o.map_mode = some MapMode.aggregate)
    (hout : step.output_name = some out) (houtne : out ≠ "")
    (hclass : classifyInputs step.inputs = (iters, consts))
    (hne : iters ≠ []) :
    getPipefuncMapspec step =
      .ok (some (joinSep ", "
        ((iters.map Prod.snd).map (fun src => src ++ "[" ++ "i" ++ "]")
          ++ consts) ++ " -> " ++ out)) := by
  have hinputs : step.inputs ≠ [] := by
    intro h
    rw [h] at hclass
    simp [classifyInputs] at hclass
    exact hne hclass.1
  simp only [getPipefuncMapspec, hopt, hms, hout, hmode, truthyOptStr,
    Option.getD_some, hclass]
  simp [hinputs, houtne, hne, joinSep, mapspecIndices]

/-- Witness for [c4_aggregate_amended]: one iterable argument gives the
indexed input `xs[i]`, the constant follows unindexed, and the output
expression `out` carries no index brackets. -/
theorem c4_aggregate_amended_witness :
    getPipefuncMapspec aggOneIterStep = .ok (some "xs[i], n -> out") :=
  c4_aggregate_amended aggOneIterStep
    { map_mode := some MapMode.aggregate } "out" [("a", "xs")] ["n"]
    rfl rfl rfl rfl (by decide) rfl (by decide)

/-- The `enumerate` loop of the broadcast branch, solved: as long as the
sources fit into the 18-symbol alphabet starting at position `i`, it
produces the indexed input expressions and the assigned symbols
`indices[i], indices[i+1], …`. -/
theorem broadcastParts_ok (sources : List String) (i : Nat)
    (h : sources.length + i ≤ mapspecIndices.length) :
    broadcastParts sources i =
      .ok (List.zipWith (fun src sym => src ++ "[" ++ sym ++ "]") sources
             ((mapspecIndices.drop i).take sources.length),
           (mapspecIndices.drop i).take sources.length) := by
  induction sources generalizing i with
  | nil => simp [broadcastParts]
  | cons src rest ih =>
    have hi : i < mapspecIndices.length := by
      simp only [List.length_cons] at h
      omega
    have hdrop : mapspecIndices.drop i =
        mapspecIndices[i] :: mapspecIndices.drop (i + 1) :=
      List.drop_eq_getElem_cons hi
    have hrest := ih (i + 1) (by simp only [List.length_cons] at h; omega)
    simp only [broadcastParts, if_neg (by omega : ¬ mapspecIndices.length ≤ i),
      hrest, List.getD_eq_getElem _ _ hi, hdrop, List.length_cons,
      List.take_succ_cons, List.zipWith_cons_cons]

/-- The broadcast loop raises `PipelineBuildError` as soon as the
enumeration counter reaches the alphabet length — which happens exactly
when a non-empty source list overruns the 18 symbols. -/
theorem broadcastParts_err (sources : List String) :
    ∀ i : Nat, sources ≠ [] →
      mapspecIndices.length < sources.length + i →
      broadcastParts sources i =
        .error (.buildError "Too many iterable inputs for broadcast.") := by
  induction sources with
  | nil => intro i hne _; exact absurd rfl hne
  | cons src rest ih =>
    intro i _ h
    by_cases hI : mapspecIndices.length ≤ i
    · simp [broadcastParts, hI]
    · cases rest with
      | nil =>
        exfalso
        simp only [List.length_cons, List.length_nil] at h
        omega
      | cons b bs =>
        have hr := ih (i + 1) (by simp)
          (by simp only [List.length_cons] at h ⊢; omega)
        have hstep : broadcastParts (src :: b :: bs) i =
            if mapspecIndices.length ≤ i then
              .error (.buildError "Too many iterable inputs for broadcast.")
            else
              match broadcastParts (b :: bs) (i + 1) with
              | .error e => .error e
              | .ok (ins, outIdx) =>
                  .ok ((src ++ "[" ++ mapspecIndices.getD i "" ++ "]") :: ins,
                       mapspecIndices.getD i "" :: outIdx) := rfl
        rw [hstep, if_neg hI, hr]

/-- Claim C2: for a broadcast step with `N` iterable arguments, `N ≤ 18`,
each iterable argument (in insertion order) is assigned a distinct
symbol from the fixed 18-symbol alphabet (the first `N` of
`i, j, k, …`), its input expression is `source[symbol]`, and the single
output expression is indexed by the comma-joined list of all `N`
assigned symbols in assignment order, with the constants appended
unindexed; when `N` exceeds 18, synthesis raises `PipelineBuildError`. -/
theorem c2_broadcast_mapspec (step : StepDefinition) (o : StepOptions)
    (out : String) (iters : Dict String) (consts : List String)
    (hopt : step.options = some o) (hms : o.mapspec = none)
    (hmode : o.map_mode = some MapMode.broadcast)
    (hout : step.output_name = some out) (houtne : out ≠ "")
    (hclass : classifyInputs step.inputs = (iters, consts))
    (hne : iters ≠ []) :
    (iters.length ≤ 18 →
      (mapspecIndices.take iters.length).Nodup
      ∧ (mapspecIndices.take iters.length).length = iters.length
      ∧ (∀ sym ∈ mapspecIndices.take iters.length, sym ∈ mapspecIndices)
      ∧ getPipefuncMapspec step =
          .ok (some (joinSep ", "
            (List.zipWith (fun src sym => src ++ "[" ++ sym ++ "]")
                (iters.map Prod.snd) (mapspecIndices.take iters.length)
              ++ consts)
            ++ " -> "
            ++ (out ++ "[" ++ joinSep "," (mapspecIndices.take iters.length)
                ++ "]"))))
    ∧ (18 < iters.length →
        getPipefuncMapspec step =
          .error (.buildError "Too many iterable inputs for broadcast.")) := by
  have h18 : mapspecIndices.length = 18 := rfl
  have hinputs : step.inputs ≠ [] := by
    intro h
    rw [h] at hclass
    simp [classifyInputs] at hclass
    exact hne hclass.1
  constructor
  · intro hlen
    refine ⟨?_, ?_, ?_, ?_⟩
    · exact (by decide : mapspecIndices.Nodup).sublist (List.take_sublist _ _)
    · rw [List.length_take]
      omega
    · intro sym hs
      exact List.take_subset _ _ hs
    · have hbp := broadcastParts_ok (iters.map Prod.snd) 0
        (by rw [List.length_map]; omega)
      simp only [List.length_map, List.drop_zero, Nat.add_zero] at hbp
      simp only [getPipefuncMapspec, hopt, hms, hout, hmode, truthyOptStr,
        Option.getD_some, hclass]
      simp [hinputs, houtne, hne, hbp, joinSep]
  · intro hlen
    have hbp := broadcastParts_err (iters.map Prod.snd) 0
      (by simpa using hne) (by rw [List.length_map]; omega)
    simp only [getPipefuncMapspec, hopt, hms, hout, hmode, truthyOptStr,
      Option.getD_some, hclass]
    simp [hinputs, houtne, hne, hbp]

/-- Witness for [c2_broadcast_mapspec]: two iterable arguments receive
the distinct symbols `i` and `j` and the output is indexed `[i,j]`. -/
theorem c2_broadcast_mapspec_witness :
    getPipefuncMapspec broadcastTwoIterStep =
      .ok (some "xs[i], ys[j] -> pairs[i,j]") :=
  ((c2_broadcast_mapspec broadcastTwoIterStep {} "pairs"
      [("a", "xs"), ("b", "ys")] []
      rfl rfl rfl rfl (by decide) rfl (by decide)).1 (by decide)).2.2.2

theorem dictContains_append {α : Type} (d e : Dict α) (k : String) :
    dictContains (d ++ e) k = (dictContains d k || dictContains e k) := by
  induction d with
  | nil => simp [dictContains]
  | cons p t ih =>
    by_cases hp : p.1 = k <;> simp [dictContains, hp, ih, Bool.or_assoc]

theorem dictContains_iff_mem {α : Type} (d : Dict α) (k : String) :
    dictContains d k = true ↔ k ∈ d.map Prod.fst := by
  induction d with
  | nil => simp [dictContains]
  | cons p t ih =>
    simp only [dictContains, List.map_cons, List.mem_cons, Bool.or_eq_true,
      beq_iff_eq, ih]
    constructor
    · rintro (h | h)
      · exact Or.inl h.symm
      · exact Or.inr h
    · rintro (h | h)
      · exact Or.inl h.symm
      · exact Or.inr h

/-- `d.update(e)` is plain concatenation when no key of `e` is already
present in `d` and the keys of `e` are distinct. -/
theorem dictUpdate_eq_append {α : Type} (e d : Dict α)
    (hdisj : ∀ k ∈ e.map Prod.fst, dictContains d k = false)
    (hnd : (e.map Prod.fst).Nodup) : dictUpdate d e = d ++ e := by
  induction e generalizing d with
  | nil => simp [dictUpdate]
  | cons p t ih =>
    have hp := hdisj p.1 (by simp)
    have hstep : dictInsert d p.1 p.2 = d ++ [p] := by
      simp [dictInsert, hp]
    have ht : ∀ k ∈ t.map Prod.fst, dictContains (d ++ [p]) k = false := by
      intro k hk
      rw [dictContains_append]
      have h1 : dictContains d k = false := hdisj k (by simp [hk])
      have h2 : dictContains [p] k = false := by
        simp only [List.map_cons, List.nodup_cons] at hnd
        have : p.1 ≠ k := fun h => hnd.1 (h ▸ hk)
        simp [dictContains, this]
      simp [h1, h2]
    have hnd2 : (t.map Prod.fst).Nodup := by
      simp only [List.map_cons, List.nodup_cons] at hnd
      exact hnd.2
    calc dictUpdate d (p :: t)
        = dictUpdate (dictInsert d p.1 p.2) t := rfl
      _ = dictUpdate (d ++ [p]) t := by rw [hstep]
      _ = (d ++ [p]) ++ t := ih (d ++ [p]) ht hnd2
      _ = d ++ (p :: t) := by simp

/-- Claim C6 — evidence for the code_bug.  The merge half behaves as
claimed: step-level fields override workflow defaults field-by-field
and the advanced options follow the named fields `cpus` and `memory`
(first conjunct, with a benign advanced key).  But a resources
declaration whose `advanced_options` contains the reserved key `cpus`
raises nothing: `prevent_reserved_keys_in_advanced_options` is stacked
`@classmethod` above `@field_validator`, so pydantic v2 never registers
it, and the `update` with the advanced mapping then silently overrides
the named field — the declared `cpus=2` becomes the advanced `99`
(second conjunct). -/
theorem c6_reserved_advanced_key_not_rejected :
    flattenResources c6GlobalRes c6StepRes =
      [("cpus", Val.vint 2), ("memory", Val.vstr "8Gi"), ("gpus", Val.vint 1)]
    ∧ flattenResources (some { cpus := some 2, memory := some "4Gi" })
        (some { advanced_options := some [("cpus", Val.vint 99)] }) =
      [("cpus", Val.vint 99), ("memory", Val.vstr "4Gi")] :=
  ⟨rfl, rfl⟩

theorem dictLookup_dictUpdate_of_not_key {α : Type} (d e : Dict α)
    (k : String) (h : ∀ p ∈ e, p.1 ≠ k) :
    dictLookup (dictUpdate d e) k = dictLookup d k := by
  induction e generalizing d with
  | nil => rfl
  | cons p t ih =>
    have hp : p.1 ≠ k := h p (by simp)
    calc dictLookup (dictUpdate (dictInsert d p.1 p.2) t) k
        = dictLookup (dictInsert d p.1 p.2) k :=
          ih _ (fun q hq => h q (by simp [hq]))
      _ = dictLookup d k := by
          rw [dictLookup_dictInsert]
          exact if_neg (fun hk => hp hk.symm)

theorem dictLookup_dictUpdate_mem {α : Type} (d e : Dict α) (k : String)
    (v : α) (hnd : (e.map Prod.fst).Nodup) (hl : dictLookup e k = some v) :
    dictLookup (dictUpdate d e) k = some v := by
  induction e generalizing d with
  | nil => simp [dictLookup] at hl
  | cons p t ih =>
    simp only [List.map_cons, List.nodup_cons] at hnd
    by_cases hp : p.1 = k
    · have hv : p.2 = v := by
        simp [dictLookup, hp] at hl
        exact hl
      have hnot : ∀ q ∈ t, q.1 ≠ k := by
        intro q hq hqk
        exact hnd.1 (hp ▸ hqk ▸ List.mem_map_of_mem Prod.fst hq)
      calc dictLookup (dictUpdate (dictInsert d p.1 p.2) t) k
          = dictLookup (dictInsert d p.1 p.2) k :=
            dictLookup_dictUpdate_of_not_key _ _ _ hnot
        _ = some v := by rw [dictLookup_dictInsert, hp, if_pos rfl, hv]
    · have hl2 : dictLookup t k = some v := by
        simpa [dictLookup, hp] using hl
      exact ih _ hnd.2 hl2

/-- Claim C3: in the merged input mapping a user value always wins on
key collision (first conjunct), a key the user does not supply keeps
its scoped workflow default (second), a non-empty missing-required set
makes resolution raise one error carrying exactly that set (third), and
every required name absent from the merge is in that set (fourth). -/
theorem c3_resolve_params (user global : Dict Val) (scope : Option String)
    (pins req : List String) (hnd : (user.map Prod.fst).Nodup) :
    (∀ k v, dictLookup user k = some v →
        dictLookup (mergedInputs user global scope) k = some v)
    ∧ (∀ k, (∀ p ∈ user, p.1 ≠ k) →
        dictLookup (mergedInputs user global scope) k =
          dictLookup (applyGlobalDefaults global scope) k)
    ∧ (missingRequired (mergedInputs user global scope) req ≠ [] →
        inputResolve user global scope pins req =
          .error (missingRequired (mergedInputs user global scope) req))
    ∧ (∀ r ∈ req, dictContains (mergedInputs user global scope) r = false →
        r ∈ missingRequired (mergedInputs user global scope) req) := by
  refine ⟨?_, ?_, ?_, ?_⟩
  · intro k v hl
    exact dictLookup_dictUpdate_mem _ _ _ _ hnd hl
  · intro k h
    exact dictLookup_dictUpdate_of_not_key _ _ _ h
  · intro hne
    cases hm : missingRequired (mergedInputs user global scope) req with
    | nil => exact absurd hm hne
    | cons a t => simp [inputResolve, hm, List.isEmpty]
  · intro r hr hc
    unfold missingRequired
    rw [List.mem_filter]
    exact ⟨hr, by simp [hc]⟩

/-- Witness for [c3_resolve_params]: the user value `1` for `x` beats
the workflow default `0`; with required inputs `x` and `z` and `z`
nowhere supplied, resolution raises listing exactly `z`. -/
theorem c3_resolve_params_witness :
    dictLookup (mergedInputs [("x", Val.vint 1)]
        [("x", Val.vint 0), ("y", Val.vint 2)] none) "x" = some (Val.vint 1)
    ∧ inputResolve [("x", Val.vint 1)] [("x", Val.vint 0), ("y", Val.vint 2)]
        none ["x", "y", "z"] ["x", "z"] = .error ["z"] := by
  have h := c3_resolve_params [("x", Val.vint 1)]
    [("x", Val.vint 0), ("y", Val.vint 2)] none ["x", "y", "z"] ["x", "z"]
    (by decide)
  exact ⟨h.1 "x" (Val.vint 1) rfl, h.2.2.1 (by decide)⟩

theorem dictLookup_eq_none_of_forall_ne {α : Type} (d : Dict α) (k : String)
    (h : ∀ p ∈ d, p.1 ≠ k) : dictLookup d k = none := by
  induction d with
  | nil => rfl
  | cons p t ih =>
    have hp : p.1 ≠ k := h p (by simp)
    show (if p.1 == k then some p.2 else dictLookup t k) = none
    rw [if_neg (by simp [hp])]
    exact ih (fun q hq => h q (by simp [hq]))

/-- Claim C10: a successful resolution returns only keys the pipeline
reports in `inputs` — any other key (a user-supplied parameter the
engine does not list included) is absent from the result rather than an
error — and the only names an error can carry are required names. -/
theorem c10_filter_to_pipeline_inputs (user global : Dict Val)
    (scope : Option String) (pins req : List String) :
    (∀ res, inputResolve user global scope pins req = .ok res →
        (∀ k v, (k, v) ∈ res → pins.contains k = true)
        ∧ (∀ k, pins.contains k = false → dictLookup res k = none))
    ∧ (∀ miss, inputResolve user global scope pins req = .error miss →
        ∀ x ∈ miss, x ∈ req) := by
  constructor
  · intro res hres
    have hr : res = (mergedInputs user global scope).filter
        (fun p => pins.contains p.1) := by
      unfold inputResolve at hres
      by_cases hm : (missingRequired (mergedInputs user global scope)
          req).isEmpty
      · rw [if_pos hm] at hres
        injection hres with h'
        exact h'.symm
      · rw [if_neg hm] at hres
        exact Except.noConfusion hres
    constructor
    · intro k v hkv
      rw [hr] at hkv
      exact (List.mem_filter.mp hkv).2
    · intro k hk
      apply dictLookup_eq_none_of_forall_ne
      intro p hp hpk
      rw [hr] at hp
      have := (List.mem_filter.mp hp).2
      rw [hpk, hk] at this
      exact Bool.noConfusion this
  · intro miss hmiss x hx
    unfold inputResolve at hmiss
    by_cases hm : (missingRequired (mergedInputs user global scope)
        req).isEmpty
    · rw [if_pos hm] at hmiss
      exact Except.noConfusion hmiss
    · rw [if_neg hm] at hmiss
      have hm2 : miss = missingRequired (mergedInputs user global scope) req :=
        ((Except.error.injEq _ _).mp hmiss).symm
      rw [hm2] at hx
      exact (List.mem_filter.mp hx).1

/-- Witness for [c10_filter_to_pipeline_inputs]: the user parameter
`junk` is not a pipeline input; resolution succeeds and the result
contains only the pipeline input `x`. -/
theorem c10_filter_to_pipeline_inputs_witness :
    (["x"] : List String).contains "x" = true
    ∧ dictLookup [("x", Val.vint 1)] "junk" = none := by
  have h := (c10_filter_to_pipeline_inputs
      [("x", Val.vint 1), ("junk", Val.vint 9)] [] none ["x"] ["x"]).1
      [("x", Val.vint 1)] rfl
  exact ⟨h.1 "x" (Val.vint 1) (by decide), h.2 "junk" rfl⟩

theorem persistOutputs_go (ctx : PersistCtx) (declaredOutputs : Dict String) :
    ∀ acc : Dict String,
      ((declaredOutputs.map Prod.fst).Nodup) →
      (∀ name ∈ declaredOutputs.map Prod.fst, dictContains acc name = false) →
      declaredOutputs.foldl (persistOne ctx) acc =
        acc ++ persistManifestSpec ctx declaredOutputs := by
  induction declaredOutputs with
  | nil => intro acc _ _; simp [persistManifestSpec]
  | cons p t ih =>
    intro acc hnd hdisj
    simp only [List.map_cons, List.nodup_cons] at hnd
    have hspec : persistManifestSpec ctx (p :: t) =
        (if ctx.resultKeys.contains (scopedName ctx.scope p.1) then
          (if ctx.serializeOk (targetPathOf ctx p.2) then
            (p.1, targetPathOf ctx p.2) :: persistManifestSpec ctx t
          else persistManifestSpec ctx t)
        else persistManifestSpec ctx t) := by
      unfold persistManifestSpec
      rw [List.filterMap_cons]
      by_cases hkey : ctx.resultKeys.contains (scopedName ctx.scope p.1)
      · have hkeym : scopedName ctx.scope p.1 ∈ ctx.resultKeys := by
          simpa using hkey
        by_cases hser : ctx.serializeOk (targetPathOf ctx p.2) <;>
          simp [hkey, hkeym, hser]
      · have hkeym : ¬ scopedName ctx.scope p.1 ∈ ctx.resultKeys := by
          simpa using hkey
        simp [hkey, hkeym]
    by_cases hkey : ctx.resultKeys.contains (scopedName ctx.scope p.1)
    · by_cases hser : ctx.serializeOk (targetPathOf ctx p.2)
      · have hone : persistOne ctx acc p = acc ++ [(p.1, targetPathOf ctx p.2)] := by
          unfold persistOne dictInsert
          rw [if_pos hkey, if_pos hser,
            if_neg (by simp [hdisj p.1 (by simp)])]
        have hdisj2 : ∀ name ∈ t.map Prod.fst,
            dictContains (acc ++ [(p.1, targetPathOf ctx p.2)]) name = false := by
          intro name hname
          rw [dictContains_append]
          have h1 : dictContains acc name = false := hdisj name (by simp [hname])
          have h2 : dictContains [(p.1, targetPathOf ctx p.2)] name = false := by
            have : p.1 ≠ name := fun h => hnd.1 (h ▸ hname)
            simp [dictContains, this]
          simp [h1, h2]
        calc (p :: t).foldl (persistOne ctx) acc
            = t.foldl (persistOne ctx) (persistOne ctx acc p) := rfl
          _ = t.foldl (persistOne ctx) (acc ++ [(p.1, targetPathOf ctx p.2)]) := by
              rw [hone]
          _ = (acc ++ [(p.1, targetPathOf ctx p.2)])
                ++ persistManifestSpec ctx t := ih _ hnd.2 hdisj2
          _ = acc ++ persistManifestSpec ctx (p :: t) := by
              rw [hspec, if_pos hkey, if_pos hser]
              simp
      · have hone : persistOne ctx acc p = acc := by
          unfold persistOne
          rw [if_pos hkey, if_neg hser]
        calc (p :: t).foldl (persistOne ctx) acc
            = t.foldl (persistOne ctx) (persistOne ctx acc p) := rfl
          _ = t.foldl (persistOne ctx) acc := by rw [hone]
          _ = acc ++ persistManifestSpec ctx t :=
              ih _ hnd.2 (fun name hname => hdisj name (by simp [hname]))
          _ = acc ++ persistManifestSpec ctx (p :: t) := by
              rw [hspec, if_pos hkey, if_neg hser]
    · have hone : persistOne ctx acc p = acc := by
        unfold persistOne
        rw [if_neg hkey]
      calc (p :: t).foldl (persistOne ctx) acc
          = t.foldl (persistOne ctx) (persistOne ctx acc p) := rfl
        _ = t.foldl (persistOne ctx) acc := by rw [hone]
        _ = acc ++ persistManifestSpec ctx t :=
            ih _ hnd.2 (fun name hname => hdisj name (by simp [hname]))
        _ = acc ++ persistManifestSpec ctx (p :: t) := by
            rw [hspec, if_neg hkey]

/-- Claim C7: persistence attempts each declared artifact
independently.  The manifest is exactly the successful artifacts
([persistManifestSpec]); splitting the declared list anywhere splits
the computation (one artifact's outcome never affects the rest); and
an artifact whose source key is absent from the results is skipped
without raising and without an entry in the manifest. -/
theorem c7_persist_isolation (ctx : PersistCtx) (declaredOutputs : Dict String)
    (hnd : (declaredOutputs.map Prod.fst).Nodup) :
    persistOutputs ctx declaredOutputs = persistManifestSpec ctx declaredOutputs
    ∧ (∀ xs ys, declaredOutputs = xs ++ ys →
        persistOutputs ctx declaredOutputs =
          persistOutputs ctx xs ++ persistOutputs ctx ys)
    ∧ (∀ name path, (name, path) ∈ declaredOutputs →
        ctx.resultKeys.contains (scopedName ctx.scope name) = false →
        dictLookup (persistOutputs ctx declaredOutputs) name = none) := by
  have hmain : ∀ (d : Dict String), ((d.map Prod.fst).Nodup) →
      persistOutputs ctx d = persistManifestSpec ctx d := by
    intro d hd
    have := persistOutputs_go ctx d [] hd (fun name _ => rfl)
    simpa [persistOutputs] using this
  refine ⟨hmain _ hnd, ?_, ?_⟩
  · intro xs ys hsplit
    subst hsplit
    have hx : (xs.map Prod.fst).Nodup := by
      rw [List.map_append] at hnd
      exact hnd.of_append_left
    have hy : (ys.map Prod.fst).Nodup := by
      rw [List.map_append] at hnd
      exact hnd.of_append_right
    rw [hmain _ hnd, hmain _ hx, hmain _ hy]
    simp [persistManifestSpec, List.filterMap_append]
  · intro name path hmem hmiss
    rw [hmain _ hnd]
    apply dictLookup_eq_none_of_forall_ne
    intro q hq hqname
    unfold persistManifestSpec at hq
    obtain ⟨p, hp, hpq⟩ := List.mem_filterMap.mp hq
    by_cases hkey : ctx.resultKeys.contains (scopedName ctx.scope p.1)
    · by_cases hser : ctx.serializeOk (targetPathOf ctx p.2)
      · rw [if_pos hkey, if_pos hser] at hpq
        injection hpq with h'
        have hp1 : p.1 = name := by
          have := congrArg Prod.fst h'
          simpa [hqname] using this
        rw [hp1] at hkey
        rw [hkey] at hmiss
        exact Bool.noConfusion hmiss
      · rw [if_pos hkey, if_neg hser] at hpq
        exact Option.noConfusion hpq
    · rw [if_neg hkey] at hpq
      exact Option.noConfusion hpq

/-- Witness for [c7_persist_isolation]: `a` persists, `b` (missing
source) and `c` (failing serialisation) are skipped, and `b` has no
manifest entry. -/
theorem c7_persist_isolation_witness :
    persistOutputs c7Ctx [("a", "a.json"), ("b", "b.json"), ("c", "c.json")] =
      [("a", "out/a.json")]
    ∧ dictLookup (persistOutputs c7Ctx
        [("a", "a.json"), ("b", "b.json"), ("c", "c.json")]) "b" = none := by
  have h := c7_persist_isolation c7Ctx
    [("a", "a.json"), ("b", "b.json"), ("c", "c.json")] (by decide)
  exact ⟨h.1, h.2.2 "b" "b.json" (by simp) rfl⟩

/-- The executor's wrapped message is never the empty string, so
`complete_run` always records it. -/
theorem execMsg_ne_empty (w e : String) : execMsg w e ≠ "" := by
  intro h
  have hlen := congrArg String.length h
  rw [execMsg] at hlen
  simp only [String.length_append] at hlen
  have h1 : ("Pipeline execution failed for '" : String).length = 31 := rfl
  have h2 : ("': " : String).length = 3 := rfl
  have h0 : ("" : String).length = 0 := rfl
  rw [h1, h2, h0] at hlen
  omega

/-- Claim C1: when every stage up to `execute` succeeds and
`pipeline.map` raises with text `e`, the run's summary has status
`failed` and the non-empty error message the executor wrapped; the
summary file is written at `run_dir/summary.json`; and the
`WorkflowRunError` wrapping the run id reaches the caller only AFTER
that write (the effect trace lists the write first). -/
theorem c1_execute_raises_failed_summary_saved (s : RunScenario) (e : String)
    (hl : s.loadOutcome = .ok ()) (he : s.envOutcome = .ok ())
    (hb : s.buildOutcome = .ok ()) (hi : s.inputsOutcome = .ok ())
    (hr : s.resolveOutcome = .ok ()) (hx : s.mapOutcome = .error e)
    (hsave : s.saveOk = true) :
    (executeWorkflow s).summary =
      some { run_id := s.runId, workflow_name := s.workflowName,
             status := .failed,
             error_message := some (execMsg s.workflowName e),
             run_dir := runDirString s.runsBase s.workflowName s.runId }
    ∧ execMsg s.workflowName e ≠ ""
    ∧ (executeWorkflow s).events =
        [.summaryWritten (runDirString s.runsBase s.workflowName s.runId
            ++ "/summary.json"),
         .raisedToCaller (wrapMsg s.runId)]
    ∧ (executeWorkflow s).result = .error (wrapMsg s.runId) := by
  have hmsg := execMsg_ne_empty s.workflowName e
  refine ⟨?_, hmsg, ?_, ?_⟩ <;>
    simp [executeWorkflow, hl, he, hb, hi, hr, hx, hsave, completeRun, hmsg]

/-- Witness for [c1_execute_raises_failed_summary_saved] at a concrete
scenario: the summary file write precedes the re-raise, and the caller
receives the error wrapped with the run id. -/
theorem c1_execute_raises_failed_summary_saved_witness :
    (executeWorkflow failingRunScenario).events =
      [.summaryWritten "/runs/demo/run_20260101_120000_abc123/summary.json",
       .raisedToCaller "Run 'run_20260101_120000_abc123' failed."]
    ∧ (executeWorkflow failingRunScenario).result =
        .error "Run 'run_20260101_120000_abc123' failed." := by
  have h := c1_execute_raises_failed_summary_saved failingRunScenario "boom"
    rfl rfl rfl rfl rfl rfl rfl
  exact ⟨h.2.2.1, h.2.2.2⟩

end FlowFunc

